import Mathlib

/-!
Verification of the `bigslice` persistence layer (`modules/data/database.py`).

The file shallowly embeds the module: SQL values, the `execute_sql` helper,
the `Database` wrapper (construction-time schema-version extraction and
checking, taxonomy seeding, and the generic `select` / `insert` / `query` /
`get_last_id` operations), together with a minimal model of the SQLite
behaviour the module relies on (auto-increment rowids for `INSERT`, row
filtering for `WHERE id=?` / `WHERE name=? AND class_id=?` clauses, and the
`dict_factory` row-to-mapping conversion).
-/

namespace Bigslice

/-- A SQL value as it travels through the wrapper (sqlite TEXT / INTEGER /
NULL are the only kinds the module uses). -/
inductive Value where
  | int : Int → Value
  | str : String → Value
  | null : Value
deriving DecidableEq, Repr

/-- Python exceptions that the module can raise. -/
inductive PyError where
  | attributeError (attr : String)
  | valueError
  | keyError (k : String)
  | stopIteration
  | exception (msg : String)
deriving DecidableEq, Repr

/-- The call that `execute_sql` hands to the sqlite cursor: the statement
text, the database file it runs against, and the bound parameters
(`none` when `db_cur.execute(sql)` is called without a parameter tuple). -/
structure ExecCall where
  sql : String
  db_path : String
  bound : Option (List Value)
deriving DecidableEq, Repr

/-- Python truthiness of the `parameters` argument of `execute_sql`:
`None` is falsy, a tuple is truthy iff it is non-empty. -/
def tupleTruthy : Option (List Value) → Bool
  | none => false
  | some ps => !ps.isEmpty

/-- Embeds `execute_sql(sql, db_path, parameters)`: the body runs
`db_cur.execute(sql, parameters)` when `if parameters:` is truthy and
`db_cur.execute(sql)` otherwise.  The result records which engine call
is made. -/
def execute_sql (sql : String) (db_path : String)
    (parameters : Option (List Value)) : ExecCall :=
  if tupleTruthy parameters then
    { sql := sql, db_path := db_path, bound := parameters }
  else
    { sql := sql, db_path := db_path, bound := none }

/-- The attribute record of a `Database` instance: `__init__` assigns
exactly `self.db_path` and `self.schema_ver` and no method assigns any
other attribute. -/
structure Database where
  db_path : String
  schema_ver : String
deriving DecidableEq, Repr

/-- The instance attribute names assigned on a `Database` object
(`__init__` sets `db_path` and `schema_ver`; nothing else is ever set). -/
def Database.instanceAttrs : List String := ["db_path", "schema_ver"]

/-- Embeds `Database.query(sql, parameters)`: the body is a single
`return execute_sql(sql, self.db_path, parameters)` and assigns no
attribute, so the attribute record after the call is the receiver. -/
def Database.query (self : Database) (sql : String)
    (parameters : Option (List Value)) : ExecCall × Database :=
  (execute_sql sql self.db_path parameters, self)

/-- The statement text built by `Database.select`: the source computes
`props_string = "*"` when `len(props) < 1` and `",".join(props)` otherwise,
then formats `"SELECT {} FROM {} {}"` with `props_string`, `table`,
`clause` (braces shown here stand for the three format slots). -/
def selectSql (table clause : String) (props : List String) : String :=
  let props_string := if props.length < 1 then "*" else String.intercalate "," props
  "SELECT " ++ props_string ++ " FROM " ++ table ++ " " ++ clause

/-- Embeds `Database.select(table, clause, parameters, props)`: builds the
statement with `selectSql` and returns `self.query(sql, parameters)`;
no attribute is assigned. -/
def Database.select (self : Database) (table clause : String)
    (parameters : Option (List Value)) (props : List String) :
    ExecCall × Database :=
  self.query (selectSql table clause props) parameters

/-- The `keys` / `values` loop of `Database.insert`: one pass over
`data.items()` appending the key to `keys` and the value to `values`. -/
def itemsFold (data : List (String × Value)) : List String × List Value :=
  data.foldl (fun acc kv => (acc.1 ++ [kv.1], acc.2 ++ [kv.2])) ([], [])

/-- The statement text built by `Database.insert`: the source formats
`"INSERT INTO {}({}) VALUES ({})"` with the table name, `",".join(keys)`
and `",".join(["?" for i in range(len(values))])`. -/
def insertSql (table : String) (keys : List String) (values : List Value) : String :=
  "INSERT INTO " ++ table ++ "(" ++ String.intercalate "," keys ++
    ") VALUES (" ++
    String.intercalate "," ((List.range values.length).map (fun _ => "?")) ++ ")"

/-- Model of one sqlite table whose first column `id` is an INTEGER PRIMARY
KEY alias of the rowid: stored rows pair the rowid with the remaining
columns, and `nextId` is the rowid the engine will assign to the next
inserted row (every stored rowid is below it in a well-formed table). -/
structure TableT where
  rows : List (Int × List (String × Value))
  nextId : Int
deriving DecidableEq, Repr

/-- sqlite semantics of executing `INSERT INTO t(cols) VALUES (?,...,?)`
with bound values `vals`: a fresh rowid is assigned, the row is appended,
and the cursor's `lastrowid` is that rowid. -/
def engineInsert (tbl : TableT) (cols : List String) (vals : List Value) :
    TableT × Int :=
  (⟨tbl.rows ++ [(tbl.nextId, cols.zip vals)], tbl.nextId + 1⟩, tbl.nextId)

/-- The mapping `dict_factory` produces for a full row of the modelled
table: the `id` column first (declaration order), then the other columns. -/
def rowDict (r : Int × List (String × Value)) : List (String × Value) :=
  ("id", Value.int r.1) :: r.2

/-- Column projection applied by the engine plus `dict_factory`: `SELECT *`
keeps the whole row mapping, `SELECT c1,...,cn` keeps exactly the named
columns in the order of `props`. -/
def selectCols (props : List String) (row : List (String × Value)) :
    List (String × Value) :=
  if props.isEmpty then row
  else props.filterMap (fun p => (row.lookup p).map (fun v => (p, v)))

/-- sqlite semantics of the statement the wrapper builds for
`select(t, "WHERE id=?", parameters=(i,), props)` on the modelled table:
the rows whose rowid equals the bound id, each converted by
`dict_factory` and projected to `props`. -/
def runSelectWhereId (tbl : TableT) (props : List String) (idv : Int) :
    List (List (String × Value)) :=
  (tbl.rows.filter (fun r => r.1 == idv)).map (fun r => selectCols props (rowDict r))

/-- Everything `Database.insert` produces: the statement text it builds,
the value tuple it binds, the table state after the engine executes the
statement, the cursor's `lastrowid` that the method returns, and the
receiver's attribute record after the call (no attribute is assigned). -/
structure InsertResult where
  sql : String
  bound : List Value
  tbl : TableT
  lastrowid : Int
  db : Database
deriving DecidableEq, Repr

/-- Embeds `Database.insert(table, data)` running against the modelled
table: `keys` / `values` are collected from `data.items()`, the statement
is built by `insertSql`, executed with the values bound positionally, and
`query.lastrowid` is returned. -/
def Database.insert (self : Database) (tbl : TableT) (table : String)
    (data : List (String × Value)) : InsertResult :=
  let kv := itemsFold data
  let r := engineInsert tbl kv.1 kv.2
  { sql := insertSql table kv.1 kv.2, bound := kv.2,
    tbl := r.1, lastrowid := r.2, db := self }

/-- Embeds `Database.get_last_id(table)`: the `try` body first evaluates
`self.database`, but `database` is not among the instance's attributes
(`__init__` assigns only `db_path` and `schema_ver`), so Python raises
`AttributeError`; the `except ValueError` clause does not catch it, so the
error propagates and the `sqlite_sequence` query is never reached.  No
attribute is assigned, so the attribute record after the call is the
receiver. -/
def Database.get_last_id (self : Database) (table : String) :
    Except PyError Int × Database :=
  if h : "database" ∈ Database.instanceAttrs then absurd h (by decide)
  else (.error (.attributeError "database"), self)

/-- Substring search over character lists, the semantics of `re.search`
for a pattern that is literal text: try a match at the current position,
otherwise search the tail; the empty haystack matches only the empty
needle. -/
def listSearch (needle : List Char) : List Char → Bool
  | [] => needle.isEmpty
  | c :: rest => needle.isPrefixOf (c :: rest) || listSearch needle rest

/-- The literal text of the version regex
(newline, then the comment, then the only version the group can match):
the pattern in the source is a backslash-escaped form of this exact
string, with `1.0.0` as the named group `ver`. -/
def schemaVerPattern : String := "\n-- schema ver.: 1.0.0"

/-- Embeds the `re.search` call of `__init__` on the bundled schema text:
the pattern contains no character classes or quantifiers, so the search
succeeds exactly when the literal `schemaVerPattern` occurs in the text,
and group `ver` is then the literal `1.0.0`. -/
def searchSchemaVer (sql_schema : String) : Option String :=
  if listSearch schemaVerPattern.data sql_schema.data then some "1.0.0" else none

/-- Embeds `self.schema_ver = re.search(...).group("ver")`: when the search
finds nothing, `re.search` returns `None` and the `.group` attribute access
raises `AttributeError`, aborting construction. -/
def initSchemaVer (sql_schema : String) : Except PyError String :=
  match searchSchemaVer sql_schema with
  | some v => .ok v
  | none => .error (.attributeError "group")

/-- Python `str()` of a SQL value, as used when the stored version is
interpolated into the mismatch message. -/
def pyToStr : Value → String
  | .str s => s
  | .int n => toString n
  | .null => "None"

/-- Python `!=` between the value read from the `schema` table and the
string `self.schema_ver`: two strings compare by content, a non-string
is never equal to a string. -/
def pyNeStr : Value → String → Bool
  | .str s, t => s != t
  | .int _, _ => true
  | .null, _ => true

/-- The message of the exception raised on a schema version mismatch:
the source concatenates two literals and formats the stored and the
bundled version into the two slots. -/
def mismatchMsg (db_schema_ver schema_ver : String) : String :=
  "SQLite3 database exists but contains different schema " ++
    ("version (" ++ db_schema_ver ++ " rather than " ++ schema_ver ++
      "), exiting!")

/-- Embeds the existing-file branch of `Database.__init__`: read the first
row of `SELECT * FROM schema WHERE 1` (a `next` on the cursor —
`StopIteration` when the table is empty), take its `ver` column, and raise
the mismatch exception when it differs from the bundled version; otherwise
construction succeeds.  The branch only reads the file, so the stored rows
are returned unchanged in either case. -/
def initExisting (schema_ver db_path : String)
    (rows : List (List (String × Value))) :
    Except PyError Database × List (List (String × Value)) :=
  match rows with
  | [] => (.error .stopIteration, rows)
  | row :: _ =>
    match row.lookup "ver" with
    | none => (.error (.keyError "ver"), rows)
    | some v =>
      if pyNeStr v schema_ver then
        (.error (.exception (mismatchMsg (pyToStr v) schema_ver)), rows)
      else
        (.ok { db_path := db_path, schema_ver := schema_ver }, rows)

/-- One data line of the bundled `chem_class_map.tsv` after the tab split:
`src_class, src, bs_class, bs_subclass = line.rstrip().split("\t")`. -/
structure SeedLine where
  src_class : String
  src : String
  bs_class : String
  bs_subclass : String
deriving DecidableEq, Repr

/-- The part of the freshly created database that the seeding loop touches:
the `chem_subclass` rows `(id, name, class_id)` with the auto-increment
counter the engine will assign next, and the `chem_subclass_map` rows
`(class_source, type_source, subclass_id)` in insertion order. -/
structure DBState where
  chem_subclass : List (Nat × String × Nat)
  chem_subclass_next : Nat
  chem_subclass_map : List (String × String × Nat)
deriving DecidableEq, Repr

/-- The state right after `db_cur.executescript(sql_schema)`: the schema
script seeds only `chem_class`, so both seeded tables start empty and the
first `chem_subclass` rowid the engine will assign is 1. -/
def initDBState : DBState :=
  { chem_subclass := [], chem_subclass_next := 1, chem_subclass_map := [] }

/-- Defaulting of the fourth tsv field:
`if bs_subclass == "": bs_subclass = "other"`. -/
def defaultSubclass (bs_subclass : String) : String :=
  if bs_subclass = "" then "other" else bs_subclass

/-- Defaulting of the third tsv field:
`if bs_class == "": bs_class = "Other"`. -/
def defaultClass (bs_class : String) : String :=
  if bs_class = "" then "Other" else bs_class

/-- The `bs_classes_id` dictionary built from `select("chem_class", "WHERE 1")`:
each row assigns `bs_classes_id[row["name"]] = row["id"]`, a later row with
the same name overwriting an earlier one; prepending and taking the first
match on lookup realizes exactly that. -/
def buildClassMap (rows : List (Nat × String)) : List (String × Nat) :=
  rows.foldl (fun m row => (row.2, row.1) :: m) []

/-- The rows answering `select("chem_subclass", "WHERE name=? AND class_id=?",
parameters=(name, cid)).fetchall()` on rows `rows` of `chem_subclass`. -/
def matchingIn (rows : List (Nat × String × Nat)) (name : String) (cid : Nat) :
    List (Nat × String × Nat) :=
  rows.filter (fun r => r.2.1 == name && r.2.2 == cid)

/-- Same lookup, phrased on the seeding state. -/
def matchingSubclass (st : DBState) (name : String) (cid : Nat) :
    List (Nat × String × Nat) :=
  matchingIn st.chem_subclass name cid

/-- Effect of `self.insert("chem_subclass", {"name": ..., "class_id": ...})`:
the engine appends the row under a fresh auto-increment id and the call
returns that id as `lastrowid`. -/
def insertChemSubclass (st : DBState) (name : String) (class_id : Nat) :
    DBState × Nat :=
  ({ st with
      chem_subclass := st.chem_subclass ++ [(st.chem_subclass_next, name, class_id)],
      chem_subclass_next := st.chem_subclass_next + 1 },
    st.chem_subclass_next)

/-- Effect of `self.insert("chem_subclass_map", {...})`: one mapping row is
appended; its own rowid is not used by the loop. -/
def insertChemSubclassMap (st : DBState) (class_source type_source : String)
    (subclass_id : Nat) : DBState :=
  { st with
      chem_subclass_map :=
        st.chem_subclass_map ++ [(class_source, type_source, subclass_id)] }

/-- Failures the seeding loop can raise: `bs_classes_id[bs_class]` on an
unknown class name (`KeyError`), and `assert len(existing) == 1` on more
than one existing subclass match (`AssertionError`). -/
inductive SeedError where
  | keyError (k : String)
  | assertionError
deriving DecidableEq, Repr

/-- One iteration of the seeding loop of `Database.__init__` for a data
line: default the two target fields, resolve the class id through
`bs_classes_id`, fetch the existing `chem_subclass` rows for the
`(name, class_id)` pair, reuse the single existing id or insert a new row
(asserting at most one match), and append one `chem_subclass_map` row. -/
def seedLine (cm : List (String × Nat)) (st : DBState) (l : SeedLine) :
    Except SeedError DBState :=
  match cm.lookup (defaultClass l.bs_class) with
  | none => .error (.keyError (defaultClass l.bs_class))
  | some cid =>
    match matchingSubclass st (defaultSubclass l.bs_subclass) cid with
    | [] =>
      let p := insertChemSubclass st (defaultSubclass l.bs_subclass) cid
      .ok (insertChemSubclassMap p.1 l.src_class l.src p.2)
    | [r] => .ok (insertChemSubclassMap st l.src_class l.src r.1)
    | _ :: _ :: _ => .error .assertionError

/-- The whole seeding loop: the data lines of `chem_class_map.tsv` (header
already skipped) processed in order, stopping at the first raised error. -/
def seedLines (cm : List (String × Nat)) : DBState → List SeedLine →
    Except SeedError DBState
  | st, [] => .ok st
  | st, l :: ls =>
    match seedLine cm st l with
    | .error e => .error e
    | .ok st1 => seedLines cm st1 ls

/-- The invariant the `assert len(existing) == 1` relies on: for every
`(name, class_id)` pair at most one `chem_subclass` row matches. -/
def WfDB (st : DBState) : Prop :=
  ∀ name cid, (matchingSubclass st name cid).length ≤ 1

instance {ε α : Type} [DecidableEq ε] [DecidableEq α] : DecidableEq (Except ε α)
  | .ok a, .ok b => by
    cases h : decide (a = b) with
    | true => exact isTrue (by simp_all)
    | false => exact isFalse (by simp_all)
  | .ok _, .error _ => isFalse (by simp)
  | .error _, .ok _ => isFalse (by simp)
  | .error e, .error f => by
    cases h : decide (e = f) with
    | true => exact isTrue (by simp_all)
    | false => exact isFalse (by simp_all)

/-! ## Helper lemmas -/

lemma itemsFold_aux (data : List (String × Value)) :
    ∀ ks vs, data.foldl (fun acc kv => (acc.1 ++ [kv.1], acc.2 ++ [kv.2])) (ks, vs) =
      (ks ++ data.map Prod.fst, vs ++ data.map Prod.snd) := by
  induction data with
  | nil => intro ks vs; simp
  | cons hd tl ih => intro ks vs; simp [ih]

lemma itemsFold_eq (data : List (String × Value)) :
    itemsFold data = (data.map Prod.fst, data.map Prod.snd) := by
  simpa [itemsFold] using itemsFold_aux data [] []

lemma zip_map_fst_snd (l : List (String × Value)) :
    (l.map Prod.fst).zip (l.map Prod.snd) = l := by
  induction l with
  | nil => rfl
  | cons hd tl ih => simp [ih]

lemma isPrefixOf_append_self (a b : List Char) : a.isPrefixOf (a ++ b) = true := by
  induction a with
  | nil => simp [List.isPrefixOf]
  | cons c cs ih => simp [List.isPrefixOf, ih]

lemma listSearch_of_isPrefixOf (n : List Char) :
    ∀ l, n.isPrefixOf l = true → listSearch n l = true := by
  intro l h
  cases l with
  | nil =>
    cases n with
    | nil => rfl
    | cons c cs => simp [List.isPrefixOf] at h
  | cons c cs => simp [listSearch, h]

lemma listSearch_prepend (n : List Char) (pre : List Char) :
    ∀ l, listSearch n l = true → listSearch n (pre ++ l) = true := by
  induction pre with
  | nil => intro l h; simpa using h
  | cons c cs ih =>
    intro l h
    have h2 := ih l h
    simp [listSearch, h2]

lemma listSearch_middle (n pre post : List Char) :
    listSearch n (pre ++ (n ++ post)) = true :=
  listSearch_prepend n pre _ (listSearch_of_isPrefixOf n _ (isPrefixOf_append_self n post))

lemma listSearch_str_middle (n pre post : String) :
    listSearch n.data (pre ++ n ++ post).data = true := by
  have h : (pre ++ n ++ post).data = pre.data ++ (n.data ++ post.data) := by
    simp [String.data_append]
  rw [h]
  exact listSearch_middle _ _ _

/-! ## Claim theorems (wrapper operations) -/

/-- C10: calling `execute_sql` with an empty tuple of bind parameters
behaves identically to calling it with no parameters at all — for every
SQL string and database path the empty tuple is falsy, so the statement is
executed unbound, exactly as with `None`. -/
theorem c10_empty_tuple_unbound :
    ∀ (sql db_path : String),
      execute_sql sql db_path (some []) = execute_sql sql db_path none ∧
      (execute_sql sql db_path (some [])).bound = none := by
  intro sql db_path
  exact ⟨rfl, rfl⟩

/-- C1 (code bug): `get_last_id` never returns the sequence value, and
never returns the sentinel -1 either — its body dereferences the
nonexistent attribute `self.database`, so every call raises
`AttributeError`, which the `except ValueError` clause does not catch. -/
theorem c1_get_last_id_always_raises :
    ∀ (self : Database) (table : String),
      (self.get_last_id table).1 = .error (.attributeError "database") ∧
      ∀ n : Int, (self.get_last_id table).1 ≠ .ok n := by
  intro self table
  constructor
  · rfl
  · intro n h
    simp [Database.get_last_id, Database.instanceAttrs] at h

/-- C9: every wrapper operation (`query`, `select`, `insert`,
`get_last_id`) leaves the instance's bound file path and cached schema
version unchanged: no method body assigns an attribute, so the attribute
record after any call is the one bound at construction. -/
theorem c9_operations_frame :
    ∀ (self : Database) (sql : String) (parameters : Option (List Value))
      (table clause tname : String) (props : List String) (tbl : TableT)
      (data : List (String × Value)),
      ((self.query sql parameters).2.db_path = self.db_path ∧
        (self.query sql parameters).2.schema_ver = self.schema_ver) ∧
      ((self.select table clause parameters props).2.db_path = self.db_path ∧
        (self.select table clause parameters props).2.schema_ver = self.schema_ver) ∧
      ((self.insert tbl tname data).db.db_path = self.db_path ∧
        (self.insert tbl tname data).db.schema_ver = self.schema_ver) ∧
      ((self.get_last_id table).2.db_path = self.db_path ∧
        (self.get_last_id table).2.schema_ver = self.schema_ver) := by
  intro self sql parameters table clause tname props tbl data
  exact ⟨⟨rfl, rfl⟩, ⟨rfl, rfl⟩, ⟨rfl, rfl⟩, ⟨rfl, rfl⟩⟩

/-- C6: `select` builds exactly `SELECT <props|*> FROM <table> <clause>` —
an empty props list yields `*`, a non-empty list the comma-joined names —
and with `props = ["a"]` every returned row is a mapping containing only
the key `a`. -/
theorem c6_select_shape :
    (∀ (table clause : String) (props : List String), props = [] →
      selectSql table clause props = "SELECT * FROM " ++ table ++ " " ++ clause) ∧
    (∀ (table clause : String) (props : List String), props ≠ [] →
      selectSql table clause props =
        "SELECT " ++ String.intercalate "," props ++ " FROM " ++ table ++ " " ++ clause) ∧
    (∀ (tbl : TableT) (idv : Int),
      (∀ r ∈ tbl.rows, ∃ v, r.2.lookup "a" = some v) →
      ∀ row ∈ runSelectWhereId tbl ["a"] idv, ∃ v, row = [("a", v)]) := by
  refine ⟨?_, ?_, ?_⟩
  · intro table clause props hp
    subst hp
    simp [selectSql]
  · intro table clause props hp
    have hlen : ¬ props.length < 1 := by
      simpa [Nat.lt_one_iff, List.length_eq_zero] using hp
    simp [selectSql, hlen]
  · intro tbl idv hcol row hrow
    simp only [runSelectWhereId, List.mem_map] at hrow
    obtain ⟨r, hrf, hre⟩ := hrow
    have hrmem : r ∈ tbl.rows := (List.mem_filter.mp hrf).1
    obtain ⟨v, hv⟩ := hcol r hrmem
    refine ⟨v, ?_⟩
    rw [← hre]
    simp [selectCols, rowDict, List.lookup, hv]

/-- C5: for every mapping and table name, `insert` builds the statement
`INSERT INTO <table>(<cols>) VALUES (<placeholders>)` with the columns in
the mapping's iteration order and the values bound positionally in the
same order, returns the newly assigned auto-increment row id, and a
subsequent `SELECT * ... WHERE id=?` on that id returns exactly one row
carrying that id and the inserted values. -/
theorem c5_insert_roundtrip (self : Database) (tbl : TableT) (table : String)
    (data : List (String × Value))
    (hfresh : ∀ r ∈ tbl.rows, r.1 < tbl.nextId) :
    (self.insert tbl table data).sql =
      "INSERT INTO " ++ table ++ "(" ++
        String.intercalate "," (data.map Prod.fst) ++ ") VALUES (" ++
        String.intercalate "," (List.replicate data.length "?") ++ ")" ∧
    (self.insert tbl table data).bound = data.map Prod.snd ∧
    (self.insert tbl table data).lastrowid = tbl.nextId ∧
    runSelectWhereId (self.insert tbl table data).tbl []
        (self.insert tbl table data).lastrowid =
      [("id", Value.int tbl.nextId) :: data] := by
  have hif := itemsFold_eq data
  refine ⟨?_, ?_, ?_, ?_⟩
  · simp [Database.insert, insertSql, hif, List.map_const']
  · simp [Database.insert, hif]
  · simp [Database.insert, engineInsert]
  · have hold : tbl.rows.filter (fun r => r.1 == tbl.nextId) = [] := by
      rw [List.filter_eq_nil_iff]
      intro r hr
      have hlt := hfresh r hr
      simp only [beq_iff_eq]
      omega
    simp [Database.insert, engineInsert, runSelectWhereId, hif,
      List.filter_append, hold, selectCols, rowDict, zip_map_fst_snd]

/-- C5 witness: a concrete two-column insert into an empty table. -/
theorem c5_insert_roundtrip_witness :
    (∀ r ∈ (⟨[], 1⟩ : TableT).rows, r.1 < (⟨[], 1⟩ : TableT).nextId) ∧
    ((Database.insert ⟨"data.db", "1.0.0"⟩ ⟨[], 1⟩ "t"
        [("a", Value.int 1), ("b", Value.str "x")]).sql =
      "INSERT INTO " ++ "t" ++ "(" ++
        String.intercalate ","
          ([("a", Value.int 1), ("b", Value.str "x")].map Prod.fst) ++
        ") VALUES (" ++
        String.intercalate ","
          (List.replicate [("a", Value.int 1), ("b", Value.str "x")].length "?") ++ ")" ∧
    (Database.insert ⟨"data.db", "1.0.0"⟩ ⟨[], 1⟩ "t"
        [("a", Value.int 1), ("b", Value.str "x")]).bound =
      [("a", Value.int 1), ("b", Value.str "x")].map Prod.snd ∧
    (Database.insert ⟨"data.db", "1.0.0"⟩ ⟨[], 1⟩ "t"
        [("a", Value.int 1), ("b", Value.str "x")]).lastrowid = (⟨[], 1⟩ : TableT).nextId ∧
    runSelectWhereId
        (Database.insert ⟨"data.db", "1.0.0"⟩ ⟨[], 1⟩ "t"
          [("a", Value.int 1), ("b", Value.str "x")]).tbl []
        (Database.insert ⟨"data.db", "1.0.0"⟩ ⟨[], 1⟩ "t"
          [("a", Value.int 1), ("b", Value.str "x")]).lastrowid =
      [("id", Value.int (⟨[], 1⟩ : TableT).nextId) ::
        [("a", Value.int 1), ("b", Value.str "x")]]) :=
  ⟨by simp,
    c5_insert_roundtrip ⟨"data.db", "1.0.0"⟩ ⟨[], 1⟩ "t"
      [("a", Value.int 1), ("b", Value.str "x")] (by simp)⟩

/-- C6 witness: the two statement shapes on a concrete table and clause,
and a projected row from a concrete one-row table. -/
theorem c6_select_shape_witness :
    selectSql "t" "WHERE id=?" [] = "SELECT * FROM " ++ "t" ++ " " ++ "WHERE id=?" ∧
    selectSql "t" "WHERE id=?" ["a"] =
      "SELECT " ++ String.intercalate "," ["a"] ++ " FROM " ++ "t" ++ " " ++ "WHERE id=?" ∧
    ∃ v, ([("a", Value.int 1)] : List (String × Value)) = [("a", v)] :=
  ⟨c6_select_shape.1 "t" "WHERE id=?" [] rfl,
    c6_select_shape.2.1 "t" "WHERE id=?" ["a"] (by decide),
    c6_select_shape.2.2 ⟨[(1, [("a", Value.int 1)])], 2⟩ 1
      (by
        intro r hr
        rw [List.mem_singleton] at hr
        subst hr
        exact ⟨Value.int 1, rfl⟩)
      [("a", Value.int 1)] (by decide)⟩

/-! ## Claim theorems (construction) -/

/-- C2 counterexample: the version regex does not accept an arbitrary
semantic version — a schema text declaring version 2.0.0 in exactly the
documented comment-line form fails extraction, so construction aborts with
an unrecoverable error instead of extracting "2.0.0". -/
theorem c2_any_semver_counterexample :
    initSchemaVer "CREATE TABLE bgc (id INTEGER);\n-- schema ver.: 2.0.0\n" =
      .error (.attributeError "group") := by
  rfl

/-- C2 (amended): the fixed pattern matches only the literal version
1.0.0 preceded by a newline — any schema text containing the literal
marker yields exactly the version "1.0.0", and construction fails fatally
(an uncaught error on the failed search) whenever that literal is absent
from the schema text. -/
theorem c2_version_marker_literal :
    (∀ pre post : String,
      initSchemaVer (pre ++ schemaVerPattern ++ post) = .ok "1.0.0") ∧
    (∀ s : String, listSearch schemaVerPattern.data s.data = false →
      initSchemaVer s = .error (.attributeError "group")) := by
  constructor
  · intro pre post
    have h := listSearch_str_middle schemaVerPattern pre post
    unfold initSchemaVer searchSchemaVer
    rw [h]
    rfl
  · intro s h
    simp [initSchemaVer, searchSchemaVer, h]

/-- C2 witness: extraction succeeds on a schema carrying the literal
marker and fails on a schema declaring version 1.0.1. -/
theorem c2_version_marker_literal_witness :
    initSchemaVer ("CREATE TABLE bgc (id INTEGER);" ++ schemaVerPattern ++
        "\nCREATE TABLE cds (id INTEGER);") = Except.ok "1.0.0" ∧
    initSchemaVer "-- schema ver.: 1.0.1" =
      Except.error (PyError.attributeError "group") :=
  ⟨c2_version_marker_literal.1 "CREATE TABLE bgc (id INTEGER);"
      "\nCREATE TABLE cds (id INTEGER);",
    c2_version_marker_literal.2 "-- schema ver.: 1.0.1" (by rfl)⟩

/-- C3: when the target file exists and its stored schema version differs
from the bundled one, construction raises the incompatibility exception,
whose message contains both version strings, and the stored rows are
returned exactly as they were read — no migration or modification is
attempted, for every pair of distinct versions. -/
theorem c3_version_mismatch_fatal (v p d : String)
    (row : List (String × Value)) (rest : List (List (String × Value)))
    (hver : row.lookup "ver" = some (.str d)) (hne : d ≠ v) :
    (initExisting v p (row :: rest)).1 =
      .error (.exception (mismatchMsg d v)) ∧
    (initExisting v p (row :: rest)).2 = row :: rest ∧
    listSearch d.data (mismatchMsg d v).data = true ∧
    listSearch v.data (mismatchMsg d v).data = true := by
  have hne2 : pyNeStr (.str d) v = true := by simp [pyNeStr, hne]
  refine ⟨?_, ?_, ?_, ?_⟩
  · simp [initExisting, hver, hne2, pyToStr]
  · simp [initExisting, hver, hne2]
  · have hdata : (mismatchMsg d v).data =
        ("SQLite3 database exists but contains different schema ".data ++
          "version (".data) ++
          (d.data ++ (" rather than ".data ++ (v.data ++ "), exiting!".data))) := by
      simp [mismatchMsg, String.data_append]
    rw [hdata]
    exact listSearch_middle d.data _ _
  · have hdata2 : (mismatchMsg d v).data =
        ("SQLite3 database exists but contains different schema ".data ++
          ("version (".data ++ (d.data ++ " rather than ".data))) ++
          (v.data ++ "), exiting!".data) := by
      simp [mismatchMsg, String.data_append]
    rw [hdata2]
    exact listSearch_middle v.data _ _

/-- C3 witness: an existing file whose stored version 0.9.0 differs from
the bundled 1.0.0. -/
theorem c3_version_mismatch_fatal_witness :
    (initExisting "1.0.0" "result/data.db" [[("ver", Value.str "0.9.0")]]).1 =
      Except.error (PyError.exception (mismatchMsg "0.9.0" "1.0.0")) ∧
    (initExisting "1.0.0" "result/data.db" [[("ver", Value.str "0.9.0")]]).2 =
      [[("ver", Value.str "0.9.0")]] ∧
    listSearch "0.9.0".data (mismatchMsg "0.9.0" "1.0.0").data = true ∧
    listSearch "1.0.0".data (mismatchMsg "0.9.0" "1.0.0").data = true :=
  c3_version_mismatch_fatal "1.0.0" "result/data.db" "0.9.0"
    [("ver", Value.str "0.9.0")] [] (by rfl) (by decide)

/-! ## Seeding lemmas -/

lemma matchingIn_append (a b : List (Nat × String × Nat)) (name : String) (cid : Nat) :
    matchingIn (a ++ b) name cid = matchingIn a name cid ++ matchingIn b name cid := by
  simp [matchingIn, List.filter_append]

lemma init_wf : WfDB initDBState := by
  intro n c
  simp [matchingSubclass, matchingIn, initDBState]

lemma seedLine_ok_spec {cm : List (String × Nat)} {st : DBState} {l : SeedLine}
    {st1 : DBState} (h : seedLine cm st l = .ok st1) :
    ∃ cid rid,
      cm.lookup (defaultClass l.bs_class) = some cid ∧
      st1.chem_subclass_map = st.chem_subclass_map ++ [(l.src_class, l.src, rid)] ∧
      (rid, defaultSubclass l.bs_subclass, cid) ∈ st1.chem_subclass ∧
      ∃ t, st1.chem_subclass = st.chem_subclass ++ t := by
  unfold seedLine at h
  split at h
  next hl => simp at h
  next cid hl =>
    split at h
    next hm =>
      simp only [Except.ok.injEq] at h
      refine ⟨cid, st.chem_subclass_next, hl, ?_, ?_, ?_⟩
      · rw [← h]; simp [insertChemSubclass, insertChemSubclassMap]
      · rw [← h]; simp [insertChemSubclass, insertChemSubclassMap]
      · exact ⟨[(st.chem_subclass_next, defaultSubclass l.bs_subclass, cid)],
          by rw [← h]; simp [insertChemSubclass, insertChemSubclassMap]⟩
    next r hm =>
      obtain ⟨rid0, rname0, rcid0⟩ := r
      simp only [Except.ok.injEq] at h
      have hrmem : (rid0, rname0, rcid0) ∈
          matchingSubclass st (defaultSubclass l.bs_subclass) cid := by
        rw [hm]; exact List.mem_singleton_self _
      have hrfil := List.mem_filter.mp hrmem
      have hpred := hrfil.2
      simp only [Bool.and_eq_true, beq_iff_eq] at hpred
      refine ⟨cid, rid0, hl, ?_, ?_, ⟨[], by rw [← h]; simp [insertChemSubclassMap]⟩⟩
      · rw [← h]; simp [insertChemSubclassMap]
      · rw [← h]
        simp only [insertChemSubclassMap]
        rw [← hpred.1, ← hpred.2]
        exact hrfil.1
    next r r2 t2 hm => simp at h

lemma seedLine_wf {cm : List (String × Nat)} {st : DBState} {l : SeedLine}
    {st1 : DBState} (hwf : WfDB st) (h : seedLine cm st l = .ok st1) : WfDB st1 := by
  unfold seedLine at h
  split at h
  next hl => simp at h
  next cid hl =>
    split at h
    next hm =>
      simp only [Except.ok.injEq] at h
      intro n c
      have hsub : st1.chem_subclass =
          st.chem_subclass ++ [(st.chem_subclass_next, defaultSubclass l.bs_subclass, cid)] := by
        rw [← h]; simp [insertChemSubclass, insertChemSubclassMap]
      rw [matchingSubclass, hsub, matchingIn_append]
      by_cases hb : defaultSubclass l.bs_subclass = n ∧ cid = c
      · have hempty : matchingIn st.chem_subclass n c = [] := by
          rw [← hb.1, ← hb.2]
          exact hm
        rw [hempty]
        simp [matchingIn, List.filter, hb.1, hb.2]
      · have hsingle : matchingIn
            [(st.chem_subclass_next, defaultSubclass l.bs_subclass, cid)] n c = [] := by
          simp only [matchingIn, List.filter_eq_nil_iff]
          intro r hr
          rw [List.mem_singleton] at hr
          subst hr
          simp only [Bool.and_eq_true, beq_iff_eq, not_and]
          intro h1 h2
          exact hb ⟨h1, h2⟩
        rw [hsingle, List.append_nil]
        exact hwf n c
    next r hm =>
      simp only [Except.ok.injEq] at h
      intro n c
      have hsub : st1.chem_subclass = st.chem_subclass := by
        rw [← h]; simp [insertChemSubclassMap]
      rw [matchingSubclass, hsub]
      exact hwf n c
    next r r2 t2 hm => simp at h

lemma seedLine_eq_nil {cm : List (String × Nat)} {st : DBState} {l : SeedLine}
    {cid : Nat} (hl : cm.lookup (defaultClass l.bs_class) = some cid)
    (hm : matchingSubclass st (defaultSubclass l.bs_subclass) cid = []) :
    seedLine cm st l = .ok (insertChemSubclassMap
      (insertChemSubclass st (defaultSubclass l.bs_subclass) cid).1
      l.src_class l.src
      (insertChemSubclass st (defaultSubclass l.bs_subclass) cid).2) := by
  unfold seedLine
  split
  next hl2 => rw [hl2] at hl; simp at hl
  next cid2 hl2 =>
    rw [hl] at hl2
    obtain rfl : cid2 = cid := (Option.some.inj hl2).symm
    split
    next => rfl
    next r hm2 => rw [hm] at hm2; simp at hm2
    next r r2 t hm2 => rw [hm] at hm2; simp at hm2

lemma seedLine_eq_single {cm : List (String × Nat)} {st : DBState} {l : SeedLine}
    {cid : Nat} {r : Nat × String × Nat}
    (hl : cm.lookup (defaultClass l.bs_class) = some cid)
    (hm : matchingSubclass st (defaultSubclass l.bs_subclass) cid = [r]) :
    seedLine cm st l = .ok (insertChemSubclassMap st l.src_class l.src r.1) := by
  unfold seedLine
  split
  next hl2 => rw [hl2] at hl; simp at hl
  next cid2 hl2 =>
    rw [hl] at hl2
    obtain rfl : cid2 = cid := (Option.some.inj hl2).symm
    split
    next hm2 => rw [hm] at hm2; simp at hm2
    next r2 hm2 =>
      rw [hm] at hm2
      obtain rfl : r2 = r := by simpa using hm2.symm
      rfl
    next r2 r3 t hm2 => rw [hm] at hm2; simp at hm2

lemma seedLine_eq_assertion {cm : List (String × Nat)} {st : DBState} {l : SeedLine}
    {cid : Nat} {x y : Nat × String × Nat} {t : List (Nat × String × Nat)}
    (hl : cm.lookup (defaultClass l.bs_class) = some cid)
    (hm : matchingSubclass st (defaultSubclass l.bs_subclass) cid = x :: y :: t) :
    seedLine cm st l = .error .assertionError := by
  unfold seedLine
  split
  next hl2 => rw [hl2] at hl; simp at hl
  next cid2 hl2 =>
    rw [hl] at hl2
    obtain rfl : cid2 = cid := (Option.some.inj hl2).symm
    split
    next hm2 => rw [hm] at hm2; simp at hm2
    next r2 hm2 => rw [hm] at hm2; simp at hm2
    next r2 r3 t2 hm2 => rfl

lemma seedLines_sub_ext (cm : List (String × Nat)) :
    ∀ (ls : List SeedLine) (st stF : DBState), seedLines cm st ls = .ok stF →
      ∃ t, stF.chem_subclass = st.chem_subclass ++ t := by
  intro ls
  induction ls with
  | nil =>
    intro st stF h
    simp only [seedLines, Except.ok.injEq] at h
    exact ⟨[], by rw [h]; simp⟩
  | cons l ls ih =>
    intro st stF h
    simp only [seedLines] at h
    cases hs : seedLine cm st l with
    | error e => rw [hs] at h; simp at h
    | ok st1 =>
      rw [hs] at h
      obtain ⟨_, _, _, _, _, t1, ht1⟩ := seedLine_ok_spec hs
      obtain ⟨t2, ht2⟩ := ih st1 stF h
      exact ⟨t1 ++ t2, by rw [ht2, ht1, List.append_assoc]⟩

lemma seedLines_map_ext (cm : List (String × Nat)) :
    ∀ (ls : List SeedLine) (st stF : DBState), seedLines cm st ls = .ok stF →
      ∃ t, stF.chem_subclass_map = st.chem_subclass_map ++ t := by
  intro ls
  induction ls with
  | nil =>
    intro st stF h
    simp only [seedLines, Except.ok.injEq] at h
    exact ⟨[], by rw [h]; simp⟩
  | cons l ls ih =>
    intro st stF h
    simp only [seedLines] at h
    cases hs : seedLine cm st l with
    | error e => rw [hs] at h; simp at h
    | ok st1 =>
      rw [hs] at h
      obtain ⟨_, rid, _, hm1, _, _⟩ := seedLine_ok_spec hs
      obtain ⟨t2, ht2⟩ := ih st1 stF h
      exact ⟨(l.src_class, l.src, rid) :: t2, by rw [ht2, hm1, List.append_assoc]; rfl⟩

lemma seedLines_map_length (cm : List (String × Nat)) :
    ∀ (ls : List SeedLine) (st stF : DBState), seedLines cm st ls = .ok stF →
      stF.chem_subclass_map.length = st.chem_subclass_map.length + ls.length := by
  intro ls
  induction ls with
  | nil =>
    intro st stF h
    simp only [seedLines, Except.ok.injEq] at h
    rw [h]
    simp
  | cons l ls ih =>
    intro st stF h
    simp only [seedLines] at h
    cases hs : seedLine cm st l with
    | error e => rw [hs] at h; simp at h
    | ok st1 =>
      rw [hs] at h
      obtain ⟨_, rid, _, hm1, _, _⟩ := seedLine_ok_spec hs
      have hlen := ih st1 stF h
      rw [hlen, hm1]
      simp
      omega

lemma seedLines_wf (cm : List (String × Nat)) :
    ∀ (ls : List SeedLine) (st stF : DBState), WfDB st →
      seedLines cm st ls = .ok stF → WfDB stF := by
  intro ls
  induction ls with
  | nil =>
    intro st stF hwf h
    simp only [seedLines, Except.ok.injEq] at h
    rw [← h]
    exact hwf
  | cons l ls ih =>
    intro st stF hwf h
    simp only [seedLines] at h
    cases hs : seedLine cm st l with
    | error e => rw [hs] at h; simp at h
    | ok st1 =>
      rw [hs] at h
      exact ih st1 stF (seedLine_wf hwf hs) h

lemma seedLines_line_spec (cm : List (String × Nat)) :
    ∀ (ls : List SeedLine) (st stF : DBState), seedLines cm st ls = .ok stF →
      ∀ i (hi : i < ls.length),
        ∃ cid rid,
          cm.lookup (defaultClass ls[i].bs_class) = some cid ∧
          stF.chem_subclass_map[st.chem_subclass_map.length + i]? =
            some (ls[i].src_class, ls[i].src, rid) ∧
          (rid, defaultSubclass ls[i].bs_subclass, cid) ∈ stF.chem_subclass := by
  intro ls
  induction ls with
  | nil =>
    intro st stF h i hi
    exact absurd hi (by simp)
  | cons l ls ih =>
    intro st stF h i hi
    simp only [seedLines] at h
    cases hs : seedLine cm st l with
    | error e => rw [hs] at h; simp at h
    | ok st1 =>
      rw [hs] at h
      obtain ⟨cid0, rid0, hl0, hm0, hmem0, t1, ht1⟩ := seedLine_ok_spec hs
      cases i with
      | zero =>
        refine ⟨cid0, rid0, ?_, ?_, ?_⟩
        · simpa using hl0
        · obtain ⟨t2, ht2⟩ := seedLines_map_ext cm ls st1 stF h
          rw [ht2, hm0, Nat.add_zero, List.append_assoc,
            List.getElem?_append_right (Nat.le_refl _)]
          simp
        · obtain ⟨t3, ht3⟩ := seedLines_sub_ext cm ls st1 stF h
          rw [ht3]
          simpa using List.mem_append_left t3 hmem0
      | succ i =>
        have hi2 : i < ls.length := by simpa using hi
        obtain ⟨cid, rid, h1, h2, h3⟩ := ih st1 stF h i hi2
        have hlen : st1.chem_subclass_map.length = st.chem_subclass_map.length + 1 := by
          rw [hm0]
          simp
        rw [hlen] at h2
        refine ⟨cid, rid, ?_, ?_, ?_⟩
        · simpa using h1
        · have hidx : st.chem_subclass_map.length + (i + 1) =
              st.chem_subclass_map.length + 1 + i := by omega
          rw [hidx]
          simpa using h2
        · simpa using h3

lemma matching_pair_unique {st : DBState} (hwf : WfDB st) {rid1 rid2 : Nat}
    {name : String} {cid : Nat}
    (h1 : (rid1, name, cid) ∈ st.chem_subclass)
    (h2 : (rid2, name, cid) ∈ st.chem_subclass) :
    rid1 = rid2 ∧ (matchingSubclass st name cid).length = 1 := by
  have hm1 : (rid1, name, cid) ∈ matchingSubclass st name cid := by
    simp [matchingSubclass, matchingIn, List.mem_filter, h1]
  have hm2 : (rid2, name, cid) ∈ matchingSubclass st name cid := by
    simp [matchingSubclass, matchingIn, List.mem_filter, h2]
  have hle := hwf name cid
  cases hm : matchingSubclass st name cid with
  | nil => rw [hm] at hm1; simp at hm1
  | cons x t =>
    cases t with
    | nil =>
      rw [hm] at hm1 hm2
      rw [List.mem_singleton] at hm1 hm2
      constructor
      · have hx := hm1.trans hm2.symm
        exact congrArg Prod.fst hx
      · rfl
    | cons y t2 =>
      rw [hm] at hle
      simp at hle

/-! ## Claim theorems (taxonomy seeding) -/

/-- C4: taxonomy seeding deduplicates subclasses — whenever two data lines
of a successfully seeded file share the same raw `(target_class,
target_subclass)` pair, exactly one `chem_subclass` row matches the
resolved pair in the final state and both corresponding
`chem_subclass_map` rows (the i-th and j-th, one per data line) carry that
row's id; and whenever the existing-subclass lookup returns more than one
match, the line fails with the fatal assertion. -/
theorem c4_subclass_dedup :
    (∀ (cm : List (String × Nat)) (lines : List SeedLine) (stF : DBState),
      seedLines cm initDBState lines = .ok stF →
      ∀ i j (hi : i < lines.length) (hj : j < lines.length),
        lines[i].bs_class = lines[j].bs_class →
        lines[i].bs_subclass = lines[j].bs_subclass →
        ∃ cid rid,
          cm.lookup (defaultClass lines[i].bs_class) = some cid ∧
          (matchingSubclass stF (defaultSubclass lines[i].bs_subclass) cid).length = 1 ∧
          (rid, defaultSubclass lines[i].bs_subclass, cid) ∈ stF.chem_subclass ∧
          stF.chem_subclass_map[i]? = some (lines[i].src_class, lines[i].src, rid) ∧
          stF.chem_subclass_map[j]? = some (lines[j].src_class, lines[j].src, rid)) ∧
    (∀ (cm : List (String × Nat)) (st : DBState) (l : SeedLine) (cid : Nat),
      cm.lookup (defaultClass l.bs_class) = some cid →
      2 ≤ (matchingSubclass st (defaultSubclass l.bs_subclass) cid).length →
      seedLine cm st l = .error .assertionError) := by
  constructor
  · intro cm lines stF hrun i j hi hj hc hs
    obtain ⟨cidI, ridI, hlI, hmI, hmemI⟩ :=
      seedLines_line_spec cm lines initDBState stF hrun i hi
    obtain ⟨cidJ, ridJ, hlJ, hmJ, hmemJ⟩ :=
      seedLines_line_spec cm lines initDBState stF hrun j hj
    have hceq : cidI = cidJ := by
      rw [hc] at hlI
      rw [hlI] at hlJ
      exact Option.some.inj hlJ
    have hmemJ2 : (ridJ, defaultSubclass lines[i].bs_subclass, cidI) ∈
        stF.chem_subclass := by
      rw [hs, hceq]
      exact hmemJ
    have hwfF : WfDB stF := seedLines_wf cm lines initDBState stF init_wf hrun
    obtain ⟨hreq, hlen1⟩ := matching_pair_unique hwfF hmemI hmemJ2
    refine ⟨cidI, ridI, hlI, hlen1, hmemI, ?_, ?_⟩
    · simpa [initDBState] using hmI
    · rw [hreq]
      simpa [initDBState] using hmJ
  · intro cm st l cid hl hmlen
    cases hm : matchingSubclass st (defaultSubclass l.bs_subclass) cid with
    | nil => rw [hm] at hmlen; simp at hmlen
    | cons x t =>
      cases t with
      | nil => rw [hm] at hmlen; simp at hmlen
      | cons y t2 => exact seedLine_eq_assertion hl hm

/-- C4 witness: two seed lines with the same (empty) target pair, run from
a fresh database; both mapping rows reference the single subclass row. -/
theorem c4_subclass_dedup_witness :
    ∃ cid rid,
      ([("Other", 1)] : List (String × Nat)).lookup (defaultClass "") = some cid ∧
      (matchingSubclass
          (⟨[(1, "other", 1)], 2,
            [("classA", "type1", 1), ("classB", "type2", 1)]⟩ : DBState)
          (defaultSubclass "") cid).length = 1 ∧
      (rid, defaultSubclass "", cid) ∈
        (⟨[(1, "other", 1)], 2,
          [("classA", "type1", 1), ("classB", "type2", 1)]⟩ : DBState).chem_subclass ∧
      (⟨[(1, "other", 1)], 2,
        [("classA", "type1", 1), ("classB", "type2", 1)]⟩ : DBState).chem_subclass_map[0]? =
        some ("classA", "type1", rid) ∧
      (⟨[(1, "other", 1)], 2,
        [("classA", "type1", 1), ("classB", "type2", 1)]⟩ : DBState).chem_subclass_map[1]? =
        some ("classB", "type2", rid) :=
  c4_subclass_dedup.1 [("Other", 1)]
    [⟨"classA", "type1", "", ""⟩, ⟨"classB", "type2", "", ""⟩]
    ⟨[(1, "other", 1)], 2, [("classA", "type1", 1), ("classB", "type2", 1)]⟩
    (by rfl) 0 1 (by decide) (by decide) rfl rfl

/-- C7: a seed line with empty `target_subclass` and `target_class` is
defaulted to the literals "other" and "Other" before resolution, and its
processing yields a `chem_subclass` row named "other" under the resolved
class "Other", referenced by the line's mapping row. -/
theorem c7_empty_fields_default (cm : List (String × Nat)) (st : DBState)
    (l : SeedLine) (cid : Nat)
    (hsub : l.bs_subclass = "") (hcls : l.bs_class = "")
    (hcid : cm.lookup "Other" = some cid)
    (hwf : (matchingSubclass st "other" cid).length ≤ 1) :
    defaultSubclass l.bs_subclass = "other" ∧
    defaultClass l.bs_class = "Other" ∧
    ∃ st1 rid, seedLine cm st l = .ok st1 ∧
      (rid, "other", cid) ∈ st1.chem_subclass ∧
      st1.chem_subclass_map = st.chem_subclass_map ++ [(l.src_class, l.src, rid)] := by
  have hds : defaultSubclass l.bs_subclass = "other" := by
    simp [defaultSubclass, hsub]
  have hdc : defaultClass l.bs_class = "Other" := by
    simp [defaultClass, hcls]
  refine ⟨hds, hdc, ?_⟩
  have hl : cm.lookup (defaultClass l.bs_class) = some cid := by
    rw [hdc]
    exact hcid
  cases hm : matchingSubclass st "other" cid with
  | nil =>
    have hm2 : matchingSubclass st (defaultSubclass l.bs_subclass) cid = [] := by
      rw [hds]
      exact hm
    refine ⟨_, st.chem_subclass_next, seedLine_eq_nil hl hm2, ?_, ?_⟩
    · simp [insertChemSubclass, insertChemSubclassMap, hds]
    · simp [insertChemSubclass, insertChemSubclassMap]
  | cons r tail =>
    cases tail with
    | nil =>
      obtain ⟨rid0, rname0, rcid0⟩ := r
      have hm2 : matchingSubclass st (defaultSubclass l.bs_subclass) cid =
          [(rid0, rname0, rcid0)] := by
        rw [hds]
        exact hm
      have hrmem : (rid0, rname0, rcid0) ∈ matchingSubclass st "other" cid := by
        rw [hm]
        exact List.mem_singleton_self _
      have hrfil := List.mem_filter.mp hrmem
      have hpred := hrfil.2
      simp only [Bool.and_eq_true, beq_iff_eq] at hpred
      refine ⟨_, rid0, seedLine_eq_single hl hm2, ?_, ?_⟩
      · simp only [insertChemSubclassMap]
        rw [← hpred.1, ← hpred.2]
        exact hrfil.1
      · simp [insertChemSubclassMap]
    | cons r2 t2 =>
      rw [hm] at hwf
      simp at hwf

/-- C7 witness: a concrete both-fields-empty line against a fresh database
whose class lookup maps "Other" to id 7. -/
theorem c7_empty_fields_default_witness :
    defaultSubclass "" = "other" ∧
    defaultClass "" = "Other" ∧
    ∃ st1 rid,
      seedLine [("Other", 7)] initDBState ⟨"classA", "type1", "", ""⟩ = .ok st1 ∧
      (rid, "other", 7) ∈ st1.chem_subclass ∧
      st1.chem_subclass_map =
        initDBState.chem_subclass_map ++ [("classA", "type1", rid)] :=
  c7_empty_fields_default [("Other", 7)] initDBState ⟨"classA", "type1", "", ""⟩ 7
    rfl rfl (by rfl) (by decide)

/-- C8: seeding inserts exactly one `chem_subclass_map` row per data line —
a successful seeding run over n data lines leaves exactly n mapping rows,
with no deduplication. -/
theorem c8_one_map_row_per_line (cm : List (String × Nat)) (lines : List SeedLine)
    (stF : DBState) (hrun : seedLines cm initDBState lines = .ok stF) :
    stF.chem_subclass_map.length = lines.length := by
  have h := seedLines_map_length cm lines initDBState stF hrun
  simpa [initDBState] using h

/-- C8 witness: the concrete two-line run leaves exactly two mapping rows,
even though the two lines collapse to one subclass. -/
theorem c8_one_map_row_per_line_witness :
    (⟨[(1, "other", 1)], 2,
      [("classA", "type1", 1), ("classB", "type2", 1)]⟩ : DBState).chem_subclass_map.length =
      ([⟨"classA", "type1", "", ""⟩, ⟨"classB", "type2", "", ""⟩] : List SeedLine).length :=
  c8_one_map_row_per_line [("Other", 1)]
    [⟨"classA", "type1", "", ""⟩, ⟨"classB", "type2", "", ""⟩]
    ⟨[(1, "other", 1)], 2, [("classA", "type1", 1), ("classB", "type2", 1)]⟩
    (by rfl)

end Bigslice
